import Mathlib

/-!
# elma::Event (week_7/elma/event.h)

A shallow embedding of the class `elma::Event` and a verification of its
contract: the stored value is carried verbatim, the propagation flag is a
two-state machine driven by `stop_propagation` and `reset`.

The class has two private members, `_value` and `_propagate`; methods that
mutate the object are functions `Event → Event`, the `const` accessors are
functions out of `Event` that leave the object alone.
-/

namespace elma

/-! ## The value type -/

/-- Modelled from the spec: the generic value type `nlohmann::json` is included
from `<json/json.h>`, which is an external library. The spec describes it as a
closed sum over null, boolean, number, string, ordered sequence of values and
ordered string-keyed mapping of values, recursively. Numbers are exact
rationals here (covering `42` and `3.14`); IEEE special values are not part of
the spec's data model. -/
inductive json where
  | null
  | boolean (b : Bool)
  | number (q : Rat)
  | string (s : String)
  | array (items : List json)
  | object (members : List (String × json))

mutual
/-- Modelled from the spec: structural equality of two values, the role played
by the library's `operator==`. -/
def json.beq : json → json → Bool
  | .null, .null => true
  | .boolean a, .boolean b => a == b
  | .number a, .number b => decide (a = b)
  | .string a, .string b => a == b
  | .array xs, .array ys => json.beqItems xs ys
  | .object xs, .object ys => json.beqMembers xs ys
  | _, _ => false
/-- Pointwise `json.beq` on the elements of two arrays. -/
def json.beqItems : List json → List json → Bool
  | [], [] => true
  | x :: xs, y :: ys => json.beq x y && json.beqItems xs ys
  | _, _ => false
/-- Pointwise equality of keys and values on the members of two objects. -/
def json.beqMembers : List (String × json) → List (String × json) → Bool
  | [], [] => true
  | (k, x) :: xs, (l, y) :: ys => (k == l) && json.beq x y && json.beqMembers xs ys
  | _, _ => false
end

/-! ## The class -/

/-- The private members of `class Event`: `json _value; bool _propagate;`. -/
structure Event where
  _value : json
  _propagate : Bool

namespace Event

/-- The constructor `Event(json value) : _value(value), _propagate(true) {}`. -/
def construct (value : json) : Event :=
  { _value := value, _propagate := true }

/-- The accessor `json value() const { return _value; }`. -/
def value (e : Event) : json := e._value

/-- The accessor `bool propagate() const { return _propagate; }`. -/
def propagate (e : Event) : Bool := e._propagate

/-- The mutator `void stop_propagation() { _propagate = false; }`. -/
def stop_propagation (e : Event) : Event :=
  { e with _propagate := false }

/-- The mutator `void reset() { _propagate = true; }`. -/
def reset (e : Event) : Event :=
  { e with _propagate := true }

end Event

/-! ## Calls on an object -/

/-- The four public methods of an `Event`. -/
inductive Call where
  | value
  | propagate
  | stop_propagation
  | reset
  deriving DecidableEq, Repr

/-- What a call hands back: a `json`, a `bool`, or nothing (`void`). -/
inductive Ret where
  | json (v : json)
  | bool (b : Bool)
  | void

/-- The two non-`const` methods. -/
inductive Mutator where
  | stop_propagation
  | reset
  deriving DecidableEq, Repr

/-- A mutator seen as a call. -/
def Mutator.toCall : Mutator → Call
  | .stop_propagation => .stop_propagation
  | .reset => .reset

namespace Event

/-- One method call: the object afterwards and the returned result. The
`const` methods leave the object as it is. -/
def call (e : Event) : Call → Event × Ret
  | .value => (e, .json e.value)
  | .propagate => (e, .bool e.propagate)
  | .stop_propagation => (e.stop_propagation, .void)
  | .reset => (e.reset, .void)

/-- The object after a sequence of calls, made left to right. -/
def run (e : Event) : List Call → Event
  | [] => e
  | c :: cs => run (e.call c).1 cs

/-- The results returned by a sequence of calls, in order. -/
def trace (e : Event) : List Call → List Ret
  | [] => []
  | c :: cs => (e.call c).2 :: trace (e.call c).1 cs

end Event

/-! ## Auxiliary lemmas -/

mutual
theorem json.beq_self : ∀ v : json, json.beq v v = true
  | .null => by simp [json.beq]
  | .boolean _ => by simp [json.beq]
  | .number _ => by simp [json.beq]
  | .string _ => by simp [json.beq]
  | .array xs => by simp [json.beq, json.beqItems_self xs]
  | .object xs => by simp [json.beq, json.beqMembers_self xs]
theorem json.beqItems_self : ∀ xs : List json, json.beqItems xs xs = true
  | [] => by simp [json.beqItems]
  | x :: xs => by simp [json.beqItems, json.beq_self x, json.beqItems_self xs]
theorem json.beqMembers_self : ∀ xs : List (String × json), json.beqMembers xs xs = true
  | [] => by simp [json.beqMembers]
  | (_, x) :: xs => by simp [json.beqMembers, json.beq_self x, json.beqMembers_self xs]
end

theorem Event.run_append (e : Event) (cs ds : List Call) :
    e.run (cs ++ ds) = (e.run cs).run ds := by
  induction cs generalizing e with
  | nil => rfl
  | cons c cs ih => simp [Event.run, ih]

theorem Event.call_value_eq (e : Event) (c : Call) : (e.call c).1._value = e._value := by
  cases c <;> rfl

theorem Event.run_value_eq (e : Event) (cs : List Call) : (e.run cs)._value = e._value := by
  induction cs generalizing e with
  | nil => rfl
  | cons c cs ih => simp [Event.run, ih, Event.call_value_eq]

theorem Event.run_concat_mutator (e : Event) (t : List Mutator) (m : Mutator) :
    (e.run ((t ++ [m]).map Mutator.toCall)).propagate = decide (m = Mutator.reset) := by
  rw [List.map_append, Event.run_append]
  cases m <;> rfl

theorem Event.reset_run_construct (v : json) (cs : List Call) :
    ((Event.construct v).run cs).reset = Event.construct v := by
  have h := Event.run_value_eq (Event.construct v) cs
  simp only [Event.construct] at h
  simp [Event.reset, Event.construct, h]

theorem Event.ext_value_propagate (e₁ e₂ : Event)
    (hv : e₁.value = e₂.value) (hp : e₁.propagate = e₂.propagate) : e₁ = e₂ := by
  cases e₁
  cases e₂
  simp only [Event.value, Event.propagate] at hv hp
  simp [hv, hp]

theorem Event.call_propagate_congr (e₁ e₂ : Event) (h : e₁._propagate = e₂._propagate)
    (c : Call) : (e₁.call c).1._propagate = (e₂.call c).1._propagate := by
  cases c <;> simp [Event.call, Event.stop_propagation, Event.reset, h]

theorem Event.run_propagate_congr (e₁ e₂ : Event) (h : e₁._propagate = e₂._propagate)
    (cs : List Call) : (e₁.run cs)._propagate = (e₂.run cs)._propagate := by
  induction cs generalizing e₁ e₂ with
  | nil => exact h
  | cons c cs ih => exact ih _ _ (Event.call_propagate_congr e₁ e₂ h c)

theorem Event.eq_of_trace_eq (e₁ e₂ : Event) (h : ∀ cs : List Call, e₁.trace cs = e₂.trace cs) :
    e₁ = e₂ := by
  have hv := h [Call.value]
  have hp := h [Call.propagate]
  simp only [Event.trace, Event.call, List.cons.injEq, Ret.json.injEq, Ret.bool.injEq,
    and_true] at hv hp
  exact Event.ext_value_propagate e₁ e₂ hv hp

/-! ## The contract of `Event` -/

/-- Claim C1: constructing an Event from any value `v`, nested arrays and
objects included, and then calling `value()` returns `v` itself; in particular
the returned value compares equal to `v`. -/
theorem Event.value_construct (v : json) :
    (Event.construct v).value = v ∧
    ((Event.construct v).call Call.value).2 = Ret.json v ∧
    json.beq (Event.construct v).value v = true :=
  ⟨rfl, rfl, json.beq_self v⟩

/-- Claim C2: a freshly constructed Event propagates, whatever its value. -/
theorem Event.propagate_construct (v : json) :
    (Event.construct v).propagate = true ∧
    ((Event.construct v).call Call.propagate).2 = Ret.bool true :=
  ⟨rfl, rfl⟩

/-- Claim C3: after `stop_propagation()` the accessor `propagate()` returns
false, in either prior flag state. -/
theorem Event.propagate_stop_propagation (e : Event) :
    e.stop_propagation.propagate = false ∧
    ((e.call Call.stop_propagation).1.call Call.propagate).2 = Ret.bool false :=
  ⟨rfl, rfl⟩

/-- Claim C4: after `reset()` the accessor `propagate()` returns true, in
either prior flag state. -/
theorem Event.propagate_reset (e : Event) :
    e.reset.propagate = true ∧
    ((e.call Call.reset).1.call Call.propagate).2 = Ret.bool true :=
  ⟨rfl, rfl⟩

/-- Claim C5: no sequence of calls drawn from `stop_propagation()`, `reset()`,
`value()` and `propagate()` changes the stored value: `value()` after the
sequence returns what it returned before, every `value()` call made inside the
sequence returns that same value, and on an Event built from `v` this is `v`. -/
theorem Event.value_run (e : Event) (cs : List Call) :
    (e.run cs).value = e.value ∧
    (∀ w, Ret.json w ∈ e.trace cs → w = e.value) ∧
    (∀ v, ((Event.construct v).run cs).value = v) := by
  refine ⟨Event.run_value_eq e cs, ?_, fun v => Event.run_value_eq (Event.construct v) cs⟩
  induction cs generalizing e with
  | nil => intro w hw; simp [Event.trace] at hw
  | cons c cs ih =>
    intro w hw
    simp only [Event.trace, List.mem_cons] at hw
    rcases hw with hw | hw
    · cases c <;> simp [Event.call] at hw
      exact hw
    · have := ih (e.call c).1 w hw
      simpa [Event.value, Event.call_value_eq] using this

/-- Claim C6: `stop_propagation()` and `reset()` are idempotent on the whole
state: calling either twice in a row leaves the same value and flag as calling
it once. -/
theorem Event.mutators_idempotent (e : Event) :
    e.stop_propagation.stop_propagation = e.stop_propagation ∧
    e.reset.reset = e.reset ∧
    e.run [Call.stop_propagation, Call.stop_propagation] = e.run [Call.stop_propagation] ∧
    e.run [Call.reset, Call.reset] = e.run [Call.reset] :=
  ⟨rfl, rfl, rfl, rfl⟩

/-- Claim C7: the redundant transitions are no-ops: on an Event whose flag is
false `stop_propagation()` leaves value and flag as they were, and on an Event
whose flag is true `reset()` leaves value and flag as they were. -/
theorem Event.redundant_transition_noop (e : Event) :
    (e.propagate = false → e.stop_propagation = e) ∧
    (e.propagate = true → e.reset = e) := by
  cases e with
  | mk v b =>
    constructor
    · intro h
      simp only [Event.propagate] at h
      simp [Event.stop_propagation, h]
    · intro h
      simp only [Event.propagate] at h
      simp [Event.reset, h]

/-- A witness for C7: a stopped Event holding a nested value is left as it is by
`stop_propagation()`, and a fresh one is left as it is by `reset()`. -/
theorem Event.redundant_transition_noop_witness :
    ((Event.construct (json.object [("k", json.array [json.number 1, json.number 2])])).stop_propagation.propagate = false ∧
      (Event.construct (json.object [("k", json.array [json.number 1, json.number 2])])).stop_propagation.stop_propagation
        = (Event.construct (json.object [("k", json.array [json.number 1, json.number 2])])).stop_propagation) ∧
    ((Event.construct (json.number 42)).propagate = true ∧
      (Event.construct (json.number 42)).reset = Event.construct (json.number 42)) :=
  ⟨⟨rfl, (Event.redundant_transition_noop
      (Event.construct (json.object [("k", json.array [json.number 1, json.number 2])])).stop_propagation).1 rfl⟩,
   ⟨rfl, (Event.redundant_transition_noop (Event.construct (json.number 42))).2 rfl⟩⟩

/-- Claim C8: the accessors are pure: a call of `value()` or `propagate()`
leaves value and flag unchanged, and a second call of the same accessor right
after the first returns the same result. -/
theorem Event.accessors_pure (e : Event) :
    (e.call Call.value).1 = e ∧
    (e.call Call.propagate).1 = e ∧
    ((e.call Call.value).1.call Call.value).2 = (e.call Call.value).2 ∧
    ((e.call Call.propagate).1.call Call.propagate).2 = (e.call Call.propagate).2 ∧
    e.trace [Call.value, Call.value] = [Ret.json e.value, Ret.json e.value] ∧
    e.trace [Call.propagate, Call.propagate] = [Ret.bool e.propagate, Ret.bool e.propagate] :=
  ⟨rfl, rfl, rfl, rfl, rfl, rfl⟩

/-- Claim C10: last mutator wins. After any sequence `s` of
`stop_propagation()`/`reset()` calls on `Event(v)`, `propagate()` is false
exactly when `s` is non-empty and ends in `stop_propagation()`; whatever calls
came earlier, the flag after a sequence ending in `m` is true exactly when `m`
is `reset()`. -/
theorem Event.last_mutator_wins (v : json) (s : List Mutator) :
    (((Event.construct v).run (s.map Mutator.toCall)).propagate = false ↔
      s ≠ [] ∧ s.getLast? = some Mutator.stop_propagation) ∧
    (∀ (t : List Mutator) (m : Mutator),
      ((Event.construct v).run ((t ++ [m]).map Mutator.toCall)).propagate
        = decide (m = Mutator.reset)) := by
  refine ⟨?_, fun t m => Event.run_concat_mutator _ t m⟩
  rcases List.eq_nil_or_concat s with rfl | ⟨t, m, rfl⟩
  · simp [Event.run, Event.construct, Event.propagate]
  · rw [List.concat_eq_append, Event.run_concat_mutator]
    cases m <;> simp

/-- Claim C11: `reset()` restores the freshly constructed state. On an Event
reached from `Event(v)` by any sequence of `stop_propagation()`/`reset()`
calls, the state after `reset()` is the state of a new `Event(v)`: value `v`,
flag true, and every later sequence of calls returns the same results on both. -/
theorem Event.reset_restores_fresh (v : json) (s : List Mutator) :
    ((Event.construct v).run (s.map Mutator.toCall)).reset = Event.construct v ∧
    (Event.construct v).run (s.map Mutator.toCall ++ [Call.reset]) = Event.construct v ∧
    ((Event.construct v).run (s.map Mutator.toCall)).reset.value = v ∧
    ((Event.construct v).run (s.map Mutator.toCall)).reset.propagate = true ∧
    (∀ cs : List Call,
      ((Event.construct v).run (s.map Mutator.toCall)).reset.trace cs
        = (Event.construct v).trace cs) := by
  have h := Event.reset_run_construct v (s.map Mutator.toCall)
  refine ⟨h, ?_, ?_, ?_, ?_⟩
  · rw [Event.run_append]
    exact h
  · rw [h]; rfl
  · rw [h]; rfl
  · intro cs
    rw [h]

/-- Claim C12: the observable behaviour is determined by the constructor value
and the sequence of mutator calls alone. For Events built from `v₁` and `v₂`
and put through sequences `s₁` and `s₂` of `stop_propagation()`/`reset()`
calls: when the values are equal `value()` returns equal values (whatever the
two sequences), and when the sequences are the same `propagate()` returns equal
booleans (whatever the two values); so with equal values and the same sequence
both accessors agree. There is no state beyond the value and the flag: two
Events return the same results on every sequence of calls exactly when they
are the same state, which is exactly when they agree on `value()` and
`propagate()`. -/
theorem Event.behaviour_determined (v₁ v₂ : json) (s₁ s₂ : List Mutator) :
    (v₁ = v₂ →
      ((Event.construct v₁).run (s₁.map Mutator.toCall)).value
        = ((Event.construct v₂).run (s₂.map Mutator.toCall)).value) ∧
    (s₁ = s₂ →
      ((Event.construct v₁).run (s₁.map Mutator.toCall)).propagate
        = ((Event.construct v₂).run (s₂.map Mutator.toCall)).propagate) ∧
    (∀ e₁ e₂ : Event,
      ((∀ cs : List Call, e₁.trace cs = e₂.trace cs) ↔ e₁ = e₂) ∧
      (e₁ = e₂ ↔ e₁.value = e₂.value ∧ e₁.propagate = e₂.propagate)) := by
  refine ⟨?_, ?_, fun e₁ e₂ => ⟨⟨Event.eq_of_trace_eq e₁ e₂, ?_⟩, ⟨?_, ?_⟩⟩⟩
  · intro h
    simp only [Event.value, Event.run_value_eq, Event.construct, h]
  · intro h
    subst h
    exact Event.run_propagate_congr (Event.construct v₁) (Event.construct v₂) rfl _
  · intro h cs
    rw [h]
  · intro h
    rw [h]
    exact ⟨rfl, rfl⟩
  · intro h
    exact Event.ext_value_propagate e₁ e₂ h.1 h.2

/-- A witness for C12: two Events built from 42 return the same value after
different mutator sequences, and Events built from 42 and from a string return
the same flag after the same sequence. -/
theorem Event.behaviour_determined_witness :
    (json.number 42 = json.number 42 ∧
      ((Event.construct (json.number 42)).run
          ([Mutator.stop_propagation].map Mutator.toCall)).value
        = ((Event.construct (json.number 42)).run
          ([Mutator.stop_propagation, Mutator.reset].map Mutator.toCall)).value) ∧
    ([Mutator.reset, Mutator.stop_propagation] = [Mutator.reset, Mutator.stop_propagation] ∧
      ((Event.construct (json.number 42)).run
          ([Mutator.reset, Mutator.stop_propagation].map Mutator.toCall)).propagate
        = ((Event.construct (json.string "hello")).run
          ([Mutator.reset, Mutator.stop_propagation].map Mutator.toCall)).propagate) :=
  ⟨⟨rfl, (Event.behaviour_determined (json.number 42) (json.number 42)
      [Mutator.stop_propagation] [Mutator.stop_propagation, Mutator.reset]).1 rfl⟩,
   ⟨rfl, (Event.behaviour_determined (json.number 42) (json.string "hello")
      [Mutator.reset, Mutator.stop_propagation] [Mutator.reset, Mutator.stop_propagation]).2.1 rfl⟩⟩

end elma
